import Mathlib

/-!
Verification of the system-program event-extraction engine of
`raydium-amm-substream` (src/src/lib.rs), shallowly embedded in Lean.

Bytes are modelled as `Nat` values (reduced mod 256 where they are
combined), byte strings as `List Nat`, and Rust panics as `Option.none`
threaded through `Option`: a function that can panic returns `Option α`,
with `none` meaning the Rust code would have panicked (out-of-bounds
slice indexing, `Option::unwrap` on `None`).
-/

deriving instance DecidableEq for Except

namespace SystemProgramSubstream

/-! ## Base-58 encoding (model of the external `bs58::encode(..).into_string()`) -/

/-- The base-58 alphabet used by `bs58` (Bitcoin alphabet). -/
def b58Alphabet : List Char :=
  "123456789ABCDEFGHJKLMNPQRSTUVWXYZabcdefghijkmnopqrstuvwxyz".data

def b58Digit (n : Nat) : Char := b58Alphabet.getD n '1'

/-- Big-endian interpretation of a byte string as a natural number. -/
def bytesToNat (bs : List Nat) : Nat :=
  bs.foldl (fun acc b => acc * 256 + b % 256) 0

/-- Emit base-58 digits of `n`, most significant first.  The fuel argument
makes the recursion structural; `2 * len + 1` fuel always suffices since a
byte string of length `len` denotes a number below `256 ^ len ≤ 58 ^ (2 * len)`. -/
def natToB58Aux : Nat → Nat → List Char → List Char
  | 0, _, acc => acc
  | _ + 1, 0, acc => acc
  | fuel + 1, n, acc => natToB58Aux fuel (n / 58) (b58Digit (n % 58) :: acc)

/-- Number of leading zero bytes, each rendered as a leading '1'. -/
def leadingZeros : List Nat → Nat
  | [] => 0
  | b :: bs => if b % 256 = 0 then leadingZeros bs + 1 else 0

/-- Base-58 encoding of a byte string, as `bs58::encode(bytes).into_string()`. -/
def bs58encode (bs : List Nat) : String :=
  String.mk (List.replicate (leadingZeros bs) '1' ++
    natToB58Aux (2 * bs.length + 1) (bytesToNat bs) [])

/-- UTF-8 encoding of one code point (the byte view Rust has of a `String`). -/
def utf8EncodeCharNat (c : Char) : List Nat :=
  let n := c.toNat
  if n < 0x80 then [n]
  else if n < 0x800 then
    [0xC0 + n / 64, 0x80 + n % 64]
  else if n < 0x10000 then
    [0xE0 + n / 4096, 0x80 + n / 64 % 64, 0x80 + n % 64]
  else
    [0xF0 + n / 262144, 0x80 + n / 4096 % 64, 0x80 + n / 64 % 64, 0x80 + n % 64]

/-- The UTF-8 byte string underlying a Rust `String`. -/
def strBytes (s : String) : List Nat :=
  s.data.flatMap utf8EncodeCharNat

/-! ## Spec-modelled instruction decoder

The repository declares `pub mod system_program` and `pub mod pubkey` in
lib.rs but those module files are not under src/.  The definitions below are
therefore modelled from the spec (sections 4.1 and 6), which gives the exact
binary layout: a 4-byte little-endian discriminant, little-endian fixed-width
integers, raw 32-byte keys, and length-prefixed UTF-8 seed strings. -/

/-- Modelled from the spec: `Pubkey` (missing src/pubkey.rs), a fixed
32-byte identifier; lib.rs accesses its raw bytes as `.0`. -/
structure Pubkey where
  bytes : List Nat
  deriving DecidableEq

/-- Modelled from the spec: the target program's canonical base-58 id
(missing src/system_program.rs constant `SYSTEM_PROGRAM_ID`), the encoding
of the 32-zero-byte key. -/
def SYSTEM_PROGRAM_ID : String := "11111111111111111111111111111111"

/-- Modelled from the spec: `CreateAccount` payload (discriminant 0):
lamports:u64, space:u64, owner:key. -/
structure CreateAccount where
  lamports : Nat
  space : Nat
  owner : Pubkey
  deriving DecidableEq

/-- Modelled from the spec: `Assign` payload (discriminant 1): owner:key. -/
structure Assign where
  owner : Pubkey
  deriving DecidableEq

/-- Modelled from the spec: `Transfer` payload (discriminant 2): lamports:u64. -/
structure Transfer where
  lamports : Nat
  deriving DecidableEq

/-- Modelled from the spec: `CreateAccountWithSeed` payload (discriminant 3):
base:key, seed:string, lamports:u64, space:u64, owner:key; lib.rs accesses
the seed's inner string as `.0`. -/
structure CreateAccountWithSeed where
  base : Pubkey
  seed : String
  lamports : Nat
  space : Nat
  owner : Pubkey
  deriving DecidableEq

/-- Modelled from the spec: `Allocate` payload (discriminant 8): space:u64. -/
structure Allocate where
  space : Nat
  deriving DecidableEq

/-- Modelled from the spec: `AllocateWithSeed` payload (discriminant 9):
base:key, seed:string, space:u64, owner:key. -/
structure AllocateWithSeed where
  base : Pubkey
  seed : String
  space : Nat
  owner : Pubkey
  deriving DecidableEq

/-- Modelled from the spec: `AssignWithSeed` payload (discriminant 10):
base:key, seed:string, owner:key. -/
structure AssignWithSeed where
  base : Pubkey
  seed : String
  owner : Pubkey
  deriving DecidableEq

/-- Modelled from the spec: `TransferWithSeed` payload (discriminant 11):
lamports:u64, from_seed:string, from_owner:key. -/
structure TransferWithSeed where
  lamports : Nat
  from_seed : String
  from_owner : Pubkey
  deriving DecidableEq

/-- Modelled from the spec: the closed union of the 13 supported variants
(missing src/system_program.rs enum `SystemInstruction`), with the payload
shapes lib.rs destructures. -/
inductive SystemInstruction where
  | createAccountI (ca : CreateAccount)
  | assignI (a : Assign)
  | transferI (t : Transfer)
  | createAccountWithSeedI (c : CreateAccountWithSeed)
  | advanceNonceAccountI
  | withdrawNonceAccountI (lamports : Nat)
  | initializeNonceAccountI (authority : Pubkey)
  | authorizeNonceAccountI (p : Pubkey)
  | allocateI (a : Allocate)
  | allocateWithSeedI (a : AllocateWithSeed)
  | assignWithSeedI (a : AssignWithSeed)
  | transferWithSeedI (t : TransferWithSeed)
  | upgradeNonceAccountI
  deriving DecidableEq

/-- Little-endian read of `w` bytes as one unsigned integer; fails when
fewer than `w` bytes remain (spec: `TruncatedData`). -/
def readLE (w : Nat) (bs : List Nat) : Option (Nat × List Nat) :=
  match w, bs with
  | 0, bs => some (0, bs)
  | w + 1, b :: bs =>
    match readLE w bs with
    | some (n, rest) => some (b % 256 + 256 * n, rest)
    | none => none
  | _ + 1, [] => none

/-- Read a raw 32-byte key. -/
def readKey (bs : List Nat) : Option (Pubkey × List Nat) :=
  if 32 ≤ bs.length then some (⟨bs.take 32⟩, bs.drop 32) else none

/-- UTF-8 decoding of a byte string, rejecting ill-formed sequences
(overlong encodings, surrogates, out-of-range code points), as Rust's
`String::from_utf8`.  The fuel argument makes the recursion structural;
`bs.length` fuel always suffices since every step consumes at least one byte. -/
def utf8DecodeAux : Nat → List Nat → Option (List Char)
  | _, [] => some []
  | 0, _ :: _ => none
  | fuel + 1, b :: bs =>
    if b < 0x80 then
      (utf8DecodeAux fuel bs).map (Char.ofNat b :: ·)
    else if b < 0xC2 then
      none
    else if b < 0xE0 then
      match bs with
      | b2 :: bs2 =>
        if 0x80 ≤ b2 ∧ b2 < 0xC0 then
          (utf8DecodeAux fuel bs2).map
            (Char.ofNat ((b - 0xC0) * 64 + (b2 - 0x80)) :: ·)
        else none
      | _ => none
    else if b < 0xF0 then
      match bs with
      | b2 :: b3 :: bs3 =>
        if (0x80 ≤ b2 ∧ b2 < 0xC0) ∧ (0x80 ≤ b3 ∧ b3 < 0xC0) then
          let cp := (b - 0xE0) * 4096 + (b2 - 0x80) * 64 + (b3 - 0x80)
          if 0x800 ≤ cp ∧ ¬ (0xD800 ≤ cp ∧ cp ≤ 0xDFFF) then
            (utf8DecodeAux fuel bs3).map (Char.ofNat cp :: ·)
          else none
        else none
      | _ => none
    else if b < 0xF5 then
      match bs with
      | b2 :: b3 :: b4 :: bs4 =>
        if (0x80 ≤ b2 ∧ b2 < 0xC0) ∧ (0x80 ≤ b3 ∧ b3 < 0xC0) ∧
            (0x80 ≤ b4 ∧ b4 < 0xC0) then
          let cp := (b - 0xF0) * 262144 + (b2 - 0x80) * 4096 +
            (b3 - 0x80) * 64 + (b4 - 0x80)
          if 0x10000 ≤ cp ∧ cp ≤ 0x10FFFF then
            (utf8DecodeAux fuel bs4).map (Char.ofNat cp :: ·)
          else none
        else none
      | _ => none
    else none

def utf8Decode (bs : List Nat) : Option String :=
  (utf8DecodeAux bs.length bs).map String.mk

/-- Modelled from the spec: a length-prefixed seed field — 8-byte
little-endian length `L`, then exactly `L` bytes of UTF-8 text; a length
exceeding the remaining bytes is `TruncatedData`, invalid UTF-8 is
`InvalidSeedEncoding`. -/
def readSeed (bs : List Nat) : Except String (String × List Nat) :=
  match readLE 8 bs with
  | none => .error "TruncatedData"
  | some (len, rest) =>
    if len ≤ rest.length then
      match utf8Decode (rest.take len) with
      | some s => .ok (s, rest.drop len)
      | none => .error "InvalidSeedEncoding"
    else .error "TruncatedData"

def rdInt (w : Nat) (bs : List Nat) : Except String (Nat × List Nat) :=
  match readLE w bs with
  | some r => .ok r
  | none => .error "TruncatedData"

def rdKey (bs : List Nat) : Except String (Pubkey × List Nat) :=
  match readKey bs with
  | some r => .ok r
  | none => .error "TruncatedData"

/-- Modelled from the spec: `SystemInstruction::unpack` (missing
src/system_program.rs).  The first 4 bytes are a little-endian unsigned
discriminant selecting the variant; remaining bytes are the variant's
fields in declared order, with no padding. -/
def SystemInstruction.unpack (data : List Nat) : Except String SystemInstruction :=
  match rdInt 4 data with
  | .error e => .error e
  | .ok (d, r0) =>
    match d with
    | 0 => do
      let (lamports, r1) ← rdInt 8 r0
      let (space, r2) ← rdInt 8 r1
      let (owner, _) ← rdKey r2
      return .createAccountI ⟨lamports, space, owner⟩
    | 1 => do
      let (owner, _) ← rdKey r0
      return .assignI ⟨owner⟩
    | 2 => do
      let (lamports, _) ← rdInt 8 r0
      return .transferI ⟨lamports⟩
    | 3 => do
      let (base, r1) ← rdKey r0
      let (seed, r2) ← readSeed r1
      let (lamports, r3) ← rdInt 8 r2
      let (space, r4) ← rdInt 8 r3
      let (owner, _) ← rdKey r4
      return .createAccountWithSeedI ⟨base, seed, lamports, space, owner⟩
    | 4 => .ok .advanceNonceAccountI
    | 5 => do
      let (lamports, _) ← rdInt 8 r0
      return .withdrawNonceAccountI lamports
    | 6 => do
      let (authority, _) ← rdKey r0
      return .initializeNonceAccountI authority
    | 7 => do
      let (p, _) ← rdKey r0
      return .authorizeNonceAccountI p
    | 8 => do
      let (space, _) ← rdInt 8 r0
      return .allocateI ⟨space⟩
    | 9 => do
      let (base, r1) ← rdKey r0
      let (seed, r2) ← readSeed r1
      let (space, r3) ← rdInt 8 r2
      let (owner, _) ← rdKey r3
      return .allocateWithSeedI ⟨base, seed, space, owner⟩
    | 10 => do
      let (base, r1) ← rdKey r0
      let (seed, r2) ← readSeed r1
      let (owner, _) ← rdKey r2
      return .assignWithSeedI ⟨base, seed, owner⟩
    | 11 => do
      let (lamports, r1) ← rdInt 8 r0
      let (from_seed, r2) ← readSeed r1
      let (from_owner, _) ← rdKey r2
      return .transferWithSeedI ⟨lamports, from_seed, from_owner⟩
    | 12 => .ok .upgradeNonceAccountI
    | _ => .error "UnknownDiscriminant"

/-! ## Output event records (pb module; fields exactly as constructed in lib.rs) -/

structure CreateAccountEvent where
  funding_account : String
  new_account : String
  lamports : Nat
  owner : String
  space : Nat
  deriving DecidableEq

structure AssignEvent where
  assigned_account : String
  owner : String
  deriving DecidableEq

structure TransferEvent where
  funding_account : String
  recipient_account : String
  lamports : Nat
  deriving DecidableEq

structure CreateAccountWithSeedEvent where
  funding_account : String
  created_account : String
  base_account : String
  seed : String
  lamports : Nat
  space : Nat
  owner : String
  deriving DecidableEq

structure AdvanceNonceAccountEvent where
  nonce_account : String
  nonce_authority : String
  deriving DecidableEq

structure WithdrawNonceAccountEvent where
  nonce_account : String
  recipient_account : String
  nonce_authority : String
  lamports : Nat
  deriving DecidableEq

structure InitializeNonceAccountEvent where
  nonce_account : String
  nonce_authority : String
  deriving DecidableEq

structure AuthorizeNonceAccountEvent where
  nonce_account : String
  nonce_authority : String
  new_nonce_authority : String
  deriving DecidableEq

structure AllocateEvent where
  account : String
  space : Nat
  deriving DecidableEq

structure AllocateWithSeedEvent where
  allocated_account : String
  base_account : String
  seed : String
  owner : String
  space : Nat
  deriving DecidableEq

structure AssignWithSeedEvent where
  assigned_account : String
  base_account : String
  owner : String
  seed : String
  deriving DecidableEq

structure TransferWithSeedEvent where
  funding_account : String
  base_account : String
  recipient_account : String
  from_owner : String
  from_seed : String
  lamports : Nat
  deriving DecidableEq

structure UpgradeNonceAccountEvent where
  nonce_account : String
  deriving DecidableEq

/-- The `system_program_event::Event` oneof. -/
inductive Event where
  | createAccount (e : CreateAccountEvent)
  | assign (e : AssignEvent)
  | transfer (e : TransferEvent)
  | createAccountWithSeed (e : CreateAccountWithSeedEvent)
  | advanceNonceAccount (e : AdvanceNonceAccountEvent)
  | withdrawNonceAccount (e : WithdrawNonceAccountEvent)
  | initializeNonceAccount (e : InitializeNonceAccountEvent)
  | authorizeNonceAccount (e : AuthorizeNonceAccountEvent)
  | allocate (e : AllocateEvent)
  | allocateWithSeed (e : AllocateWithSeedEvent)
  | assignWithSeed (e : AssignWithSeedEvent)
  | transferWithSeed (e : TransferWithSeedEvent)
  | upgradeNonceAccount (e : UpgradeNonceAccountEvent)
  deriving DecidableEq

structure SystemProgramEvent where
  instruction_index : Nat
  event : Option Event
  deriving DecidableEq

structure SystemProgramTransactionEvents where
  signature : List Nat
  transaction_index : Nat
  events : List SystemProgramEvent
  deriving DecidableEq

/-! ## Transaction-side input model

The block/transaction transport and the flattening of nested instructions
are external collaborators (spec section 1): a transaction is modelled as
carrying its already-flattened instruction stream and its already-resolved
account table, exactly the views lib.rs reads through
`get_structured_instructions(..).flattened()` and
`context.get_account_from_index(..)`. -/

/-- One flattened instruction: owning-program index, account-index list and
raw data bytes, the three accessors lib.rs uses. -/
structure StructuredInstruction where
  program_id_index : Nat
  accounts : List Nat
  data : List Nat
  deriving DecidableEq

/-- Transaction metadata; `err.isSome` means the transaction failed. -/
structure TransactionMeta where
  err : Option String
  deriving DecidableEq

structure ConfirmedTransaction where
  meta : Option TransactionMeta
  signature : List Nat
  account_keys : List (List Nat)
  instructions : List StructuredInstruction
  deriving DecidableEq

structure Block where
  transactions : List ConfirmedTransaction
  deriving DecidableEq

/-- The per-transaction context: the resolved account table. -/
structure TransactionContext where
  account_keys : List (List Nat)
  deriving DecidableEq

def get_context (tx : ConfirmedTransaction) : TransactionContext :=
  ⟨tx.account_keys⟩

def get_signature (tx : ConfirmedTransaction) : List Nat :=
  tx.signature

/-- `context.get_account_from_index(i)`: table lookup; `none` models the
panic on an out-of-range index. -/
def TransactionContext.get_account_from_index (ctx : TransactionContext)
    (i : Nat) : Option (List Nat) :=
  ctx.account_keys[i]?

/-- `instruction.accounts()[i]`: unchecked Rust slice indexing; `none`
models the out-of-bounds panic. -/
def accountAt (instruction : StructuredInstruction) (i : Nat) : Option Nat :=
  instruction.accounts[i]?

/-! ## The per-variant assemblers (lib.rs `_parse_*_instruction`)

Each returns `Option` of its event: `none` models the panic of the
unchecked `accounts()[i]` indexing (and of an out-of-range account-table
lookup); none of these functions ever produces a Rust `Err`. -/

def _parse_create_account_instruction (instruction : StructuredInstruction)
    (context : TransactionContext) (create_account : CreateAccount) :
    Option CreateAccountEvent := do
  let funding_account ← context.get_account_from_index (← accountAt instruction 0)
  let new_account ← context.get_account_from_index (← accountAt instruction 1)
  some { funding_account := bs58encode funding_account
         new_account := bs58encode new_account
         lamports := create_account.lamports
         owner := bs58encode create_account.owner.bytes
         space := create_account.space }

def _parse_assign_instruction (instruction : StructuredInstruction)
    (context : TransactionContext) (assign : Assign) :
    Option AssignEvent := do
  let assigned_account ← context.get_account_from_index (← accountAt instruction 0)
  some { assigned_account := bs58encode assigned_account
         owner := bs58encode assign.owner.bytes }

def _parse_transfer_instruction (instruction : StructuredInstruction)
    (context : TransactionContext) (transfer : Transfer) :
    Option TransferEvent := do
  let funding_account ← context.get_account_from_index (← accountAt instruction 0)
  let recipient_account ← context.get_account_from_index (← accountAt instruction 1)
  some { funding_account := bs58encode funding_account
         recipient_account := bs58encode recipient_account
         lamports := transfer.lamports }

def _parse_create_account_with_seed_instruction
    (instruction : StructuredInstruction) (context : TransactionContext)
    (create_account_with_seed : CreateAccountWithSeed) :
    Option CreateAccountWithSeedEvent := do
  let funding_account ← context.get_account_from_index (← accountAt instruction 0)
  let created_account ← context.get_account_from_index (← accountAt instruction 1)
  some { funding_account := bs58encode funding_account
         created_account := bs58encode created_account
         base_account := bs58encode create_account_with_seed.base.bytes
         seed := create_account_with_seed.seed
         lamports := create_account_with_seed.lamports
         space := create_account_with_seed.space
         owner := bs58encode create_account_with_seed.owner.bytes }

def _parse_advance_nonce_account_instruction
    (instruction : StructuredInstruction) (context : TransactionContext) :
    Option AdvanceNonceAccountEvent := do
  let nonce_account ← context.get_account_from_index (← accountAt instruction 0)
  let nonce_authority ← context.get_account_from_index (← accountAt instruction 2)
  some { nonce_account := bs58encode nonce_account
         nonce_authority := bs58encode nonce_authority }

def _parse_withdraw_nonce_account_instruction
    (instruction : StructuredInstruction) (context : TransactionContext)
    (lamports : Nat) : Option WithdrawNonceAccountEvent := do
  let nonce_account ← context.get_account_from_index (← accountAt instruction 0)
  let recipient_account ← context.get_account_from_index (← accountAt instruction 1)
  let nonce_authority ← context.get_account_from_index (← accountAt instruction 4)
  some { nonce_account := bs58encode nonce_account
         recipient_account := bs58encode recipient_account
         nonce_authority := bs58encode nonce_authority
         lamports := lamports }

def _parse_initialize_nonce_account_instruction
    (instruction : StructuredInstruction) (context : TransactionContext)
    (authority : Pubkey) : Option InitializeNonceAccountEvent := do
  let nonce_account ← context.get_account_from_index (← accountAt instruction 0)
  some { nonce_account := bs58encode nonce_account
         nonce_authority := bs58encode authority.bytes }

def _parse_authorize_nonce_account_instruction
    (instruction : StructuredInstruction) (context : TransactionContext)
    (pubkey : Pubkey) : Option AuthorizeNonceAccountEvent := do
  let nonce_account ← context.get_account_from_index (← accountAt instruction 0)
  let nonce_authority ← context.get_account_from_index (← accountAt instruction 1)
  some { nonce_account := bs58encode nonce_account
         nonce_authority := bs58encode nonce_authority
         new_nonce_authority := bs58encode pubkey.bytes }

def _parse_allocate_instruction (instruction : StructuredInstruction)
    (context : TransactionContext) (allocate : Allocate) :
    Option AllocateEvent := do
  let account ← context.get_account_from_index (← accountAt instruction 0)
  some { account := bs58encode account
         space := allocate.space }

def _parse_allocate_with_seed_instruction
    (instruction : StructuredInstruction) (context : TransactionContext)
    (allocate_with_seed : AllocateWithSeed) :
    Option AllocateWithSeedEvent := do
  let allocated_account ← context.get_account_from_index (← accountAt instruction 0)
  some { allocated_account := bs58encode allocated_account
         base_account := bs58encode allocate_with_seed.base.bytes
         seed := bs58encode (strBytes allocate_with_seed.seed)
         owner := bs58encode allocate_with_seed.owner.bytes
         space := allocate_with_seed.space }

def _parse_assign_with_seed_instruction
    (instruction : StructuredInstruction) (context : TransactionContext)
    (assign_with_seed : AssignWithSeed) :
    Option AssignWithSeedEvent := do
  let assigned_account ← context.get_account_from_index (← accountAt instruction 0)
  some { assigned_account := bs58encode assigned_account
         base_account := bs58encode assign_with_seed.base.bytes
         owner := bs58encode assign_with_seed.owner.bytes
         seed := bs58encode (strBytes assign_with_seed.seed) }

def _parse_transfer_with_seed_instruction
    (instruction : StructuredInstruction) (context : TransactionContext)
    (transfer_with_seed : TransferWithSeed) :
    Option TransferWithSeedEvent := do
  let funding_account ← context.get_account_from_index (← accountAt instruction 0)
  let base_account ← context.get_account_from_index (← accountAt instruction 1)
  let recipient_account ← context.get_account_from_index (← accountAt instruction 2)
  some { funding_account := bs58encode funding_account
         base_account := bs58encode base_account
         recipient_account := bs58encode recipient_account
         from_owner := bs58encode transfer_with_seed.from_owner.bytes
         from_seed := bs58encode (strBytes transfer_with_seed.from_seed)
         lamports := transfer_with_seed.lamports }

def _parse_upgrade_nonce_account_instruction
    (instruction : StructuredInstruction) (context : TransactionContext) :
    Option UpgradeNonceAccountEvent := do
  let nonce_account ← context.get_account_from_index (← accountAt instruction 0)
  some { nonce_account := bs58encode nonce_account }

/-! ## parse_instruction / parse_transaction / parse_block (lib.rs) -/

/-- Whether the instruction's owning program resolves (without panicking)
to a key whose base-58 encoding is the system program id — the guard both
loops of lib.rs evaluate. -/
def ownerIsSystemProgram (instruction : StructuredInstruction)
    (context : TransactionContext) : Prop :=
  ∃ key, context.get_account_from_index instruction.program_id_index = some key ∧
    bs58encode key = SYSTEM_PROGRAM_ID

instance (instruction : StructuredInstruction) (context : TransactionContext) :
    Decidable (ownerIsSystemProgram instruction context) := by
  unfold ownerIsSystemProgram
  match h : context.get_account_from_index instruction.program_id_index with
  | none => exact .isFalse (by simp [h])
  | some key => exact decidable_of_iff (bs58encode key = SYSTEM_PROGRAM_ID) (by simp [h])

/-- lib.rs `parse_instruction`.  The outer `Option` models panics from the
account lookups; the `Except` is the function's `Result<Option<Event>, String>`. -/
def parse_instruction (instruction : StructuredInstruction)
    (context : TransactionContext) : Option (Except String (Option Event)) := do
  let programKey ← context.get_account_from_index instruction.program_id_index
  if bs58encode programKey ≠ SYSTEM_PROGRAM_ID then
    return .error "Not a System Program instruction."
  else
    match SystemInstruction.unpack instruction.data with
    | .error e => return .error e
    | .ok unpacked =>
      match unpacked with
      | .createAccountI create_account => do
        let x ← _parse_create_account_instruction instruction context create_account
        return .ok (some (Event.createAccount x))
      | .assignI assign => do
        let x ← _parse_assign_instruction instruction context assign
        return .ok (some (Event.assign x))
      | .transferI transfer => do
        let x ← _parse_transfer_instruction instruction context transfer
        return .ok (some (Event.transfer x))
      | .createAccountWithSeedI c => do
        let x ← _parse_create_account_with_seed_instruction instruction context c
        return .ok (some (Event.createAccountWithSeed x))
      | .advanceNonceAccountI => do
        let x ← _parse_advance_nonce_account_instruction instruction context
        return .ok (some (Event.advanceNonceAccount x))
      | .withdrawNonceAccountI lamports => do
        let x ← _parse_withdraw_nonce_account_instruction instruction context lamports
        return .ok (some (Event.withdrawNonceAccount x))
      | .initializeNonceAccountI authority => do
        let x ← _parse_initialize_nonce_account_instruction instruction context authority
        return .ok (some (Event.initializeNonceAccount x))
      | .authorizeNonceAccountI pubkey => do
        let x ← _parse_authorize_nonce_account_instruction instruction context pubkey
        return .ok (some (Event.authorizeNonceAccount x))
      | .allocateI allocate => do
        let x ← _parse_allocate_instruction instruction context allocate
        return .ok (some (Event.allocate x))
      | .allocateWithSeedI a => do
        let x ← _parse_allocate_with_seed_instruction instruction context a
        return .ok (some (Event.allocateWithSeed x))
      | .assignWithSeedI a => do
        let x ← _parse_assign_with_seed_instruction instruction context a
        return .ok (some (Event.assignWithSeed x))
      | .transferWithSeedI t => do
        let x ← _parse_transfer_with_seed_instruction instruction context t
        return .ok (some (Event.transferWithSeed x))
      | .upgradeNonceAccountI => do
        let x ← _parse_upgrade_nonce_account_instruction instruction context
        return .ok (some (Event.upgradeNonceAccount x))

/-- The `for (i, instruction) in instructions.flattened().iter().enumerate()`
loop of `parse_transaction`, started at position `i`: non-matching programs
are skipped, `Err` results are logged and skipped, `Ok` events are pushed
with their original position.  `none` models a panic (in the program-id
lookup or inside `parse_instruction`). -/
def parseLoop (context : TransactionContext) :
    List StructuredInstruction → Nat → Option (List SystemProgramEvent)
  | [], _ => some []
  | instruction :: rest, i => do
    let programKey ← context.get_account_from_index instruction.program_id_index
    if bs58encode programKey = SYSTEM_PROGRAM_ID then
      match ← parse_instruction instruction context with
      | .ok event => do
        let events ← parseLoop context rest (i + 1)
        some ({ instruction_index := i, event := event } :: events)
      | .error _ => parseLoop context rest (i + 1)
    else
      parseLoop context rest (i + 1)

/-- lib.rs `parse_transaction`.  `none` models a panic: the
`transaction.meta.as_ref().unwrap()` on a missing meta, or any panic
raised while processing an instruction. -/
def parse_transaction (transaction : ConfirmedTransaction) :
    Option (Except String (List SystemProgramEvent)) := do
  let meta ← transaction.meta
  if (meta.err).isSome then
    return .error "Cannot parse failed transaction."
  else
    let context := get_context transaction
    match parseLoop context transaction.instructions 0 with
    | none => none
    | some events => return .ok events

/-- The transaction loop of lib.rs `parse_block`, started at block
position `i`. -/
def parseBlockLoop : List ConfirmedTransaction → Nat →
    Option (List SystemProgramTransactionEvents)
  | [], _ => some []
  | transaction :: rest, i =>
    match parse_transaction transaction with
    | none => none
    | some (.error _) => parseBlockLoop rest (i + 1)
    | some (.ok events) =>
      if events.isEmpty then parseBlockLoop rest (i + 1)
      else do
        let blockEvents ← parseBlockLoop rest (i + 1)
        some ({ signature := get_signature transaction
                transaction_index := i
                events := events } :: blockEvents)

/-- lib.rs `parse_block`; `none` models a panic raised while processing
some transaction. -/
def parse_block (block : Block) : Option (List SystemProgramTransactionEvents) :=
  parseBlockLoop block.transactions 0

/-- The key an instruction's `j`-th account position resolves to:
`accounts()[j]` followed by the account-table lookup. -/
def resolvedKeyOpt (instruction : StructuredInstruction)
    (context : TransactionContext) (j : Nat) : Option (List Nat) :=
  (accountAt instruction j).bind context.get_account_from_index

/-! ## Concrete inputs used by witnesses and counterexamples -/

def sysKey : List Nat := List.replicate 32 0

def keyA : List Nat := List.replicate 32 1

def keyB : List Nat := List.replicate 32 2

def keyOther : List Nat := List.replicate 32 3

def keyD : List Nat := List.replicate 32 4

def keyE : List Nat := List.replicate 32 5

/-- A shared concrete account table: index 0 is the system program key,
index 3 an unrelated program key. -/
def wCtx : TransactionContext := ⟨[sysKey, keyA, keyB, keyOther, keyD, keyE]⟩

/-- A well-formed Transfer instruction: discriminant 2, lamports 500. -/
def wInstTransfer : StructuredInstruction :=
  ⟨0, [1, 2], [2, 0, 0, 0, 244, 1, 0, 0, 0, 0, 0, 0]⟩

/-- An instruction owned by the non-system program at table index 3. -/
def wInstOther : StructuredInstruction := ⟨3, [1], [9, 9]⟩

/-- A second well-formed Transfer instruction: lamports 1. -/
def wInstTransfer2 : StructuredInstruction :=
  ⟨0, [2, 1], [2, 0, 0, 0, 1, 0, 0, 0, 0, 0, 0, 0]⟩

/-- A Transfer instruction supplying only one account index. -/
def wInstShort : StructuredInstruction :=
  ⟨0, [1], [2, 0, 0, 0, 244, 1, 0, 0, 0, 0, 0, 0]⟩

/-- An instruction with an unknown discriminant (255). -/
def wInstBadTag : StructuredInstruction := ⟨0, [1], [255, 0, 0, 0]⟩

/-- A transaction with meta present, not failed, and the three-instruction
stream [system-owned, other-owned, system-owned]. -/
def wTx : ConfirmedTransaction :=
  ⟨some ⟨none⟩, [7], [sysKey, keyA, keyB, keyOther, keyD, keyE],
    [wInstTransfer, wInstOther, wInstTransfer2]⟩

/-- A failed transaction (meta.err set). -/
def wTxFailed : ConfirmedTransaction :=
  ⟨some ⟨some "InstructionError"⟩, [8], [sysKey, keyA, keyB],
    [wInstTransfer]⟩

/-- A transaction whose meta field is absent. -/
def wTxNoMeta : ConfirmedTransaction :=
  ⟨none, [9], [sysKey, keyA, keyB], [wInstTransfer]⟩

/-- A block holding one successful transaction whose only instruction is a
system-owned Transfer with a single account index: resolving it indexes
`accounts()[1]` out of bounds. -/
def wBlockPanics : Block :=
  ⟨[⟨some ⟨none⟩, [10], [sysKey, keyA], [wInstShort]⟩]⟩

/-- The two events wTx produces. -/
def wEvents : List SystemProgramEvent :=
  [{ instruction_index := 0
     event := some (Event.transfer
       ⟨bs58encode keyA, bs58encode keyB, 500⟩) },
   { instruction_index := 2
     event := some (Event.transfer
       ⟨bs58encode keyB, bs58encode keyA, 1⟩) }]

/-- A block with a failed transaction at index 0 and a successful,
event-producing transaction at index 1. -/
def wBlock : Block := ⟨[wTxFailed, wTx]⟩

/-- The expected output of `parse_block wBlock`: one entry, for wTx. -/
def wOut : List SystemProgramTransactionEvents :=
  [{ signature := [7], transaction_index := 1, events := wEvents }]

/-! ## Theorems -/

/-- C1: a CreateAccount instruction decoding to lamports 1000000000,
space 0 and owner key, whose account-index list resolves position 0 to the
funder key and position 1 to the new key, assembles the event with the
base-58 text of those keys, the literal lamports and space, and the
base-58 text of the decoded owner. -/
theorem claim_C1_create_account_event (instruction : StructuredInstruction)
    (context : TransactionContext) (owner : Pubkey)
    (i0 i1 : Nat) (funderKey newKey : List Nat)
    (h0 : accountAt instruction 0 = some i0)
    (h1 : context.get_account_from_index i0 = some funderKey)
    (h2 : accountAt instruction 1 = some i1)
    (h3 : context.get_account_from_index i1 = some newKey) :
    _parse_create_account_instruction instruction context
      ⟨1000000000, 0, owner⟩ =
      some { funding_account := bs58encode funderKey
             new_account := bs58encode newKey
             lamports := 1000000000
             owner := bs58encode owner.bytes
             space := 0 } := by
  simp [_parse_create_account_instruction, h0, h1, h2, h3]

theorem claim_C1_witness :
    _parse_create_account_instruction ⟨0, [1, 2], []⟩ wCtx
      ⟨1000000000, 0, ⟨keyD⟩⟩ =
      some { funding_account := bs58encode keyA
             new_account := bs58encode keyB
             lamports := 1000000000
             owner := bs58encode keyD
             space := 0 } :=
  claim_C1_create_account_event ⟨0, [1, 2], []⟩ wCtx ⟨keyD⟩ 1 2 keyA keyB
    rfl rfl rfl rfl

/-- C2 counterexample: a Transfer instruction carrying exactly one account
index makes `_parse_transfer_instruction` hit the unchecked `accounts()[1]`
indexing: the result is `none` — the model of a Rust panic — not an
`AccountArityMismatch` error value, refuting the claim that resolution
fails gracefully rather than panicking. -/
theorem claim_C2_counterexample :
    _parse_transfer_instruction wInstShort wCtx ⟨500⟩ = none := by
  decide

/-- C2 amended: for the variants reading two account positions (Transfer,
CreateAccount), an account-index list with fewer than 2 entries makes the
parse function panic through unchecked out-of-bounds indexing (modelled as
`none`); no `AccountArityMismatch` error value exists in the code. -/
theorem claim_C2_short_accounts_panic (instruction : StructuredInstruction)
    (context : TransactionContext) (transfer : Transfer)
    (create_account : CreateAccount)
    (h : instruction.accounts.length < 2) :
    _parse_transfer_instruction instruction context transfer = none ∧
    _parse_create_account_instruction instruction context create_account
      = none := by
  match hacc : instruction.accounts with
  | [] =>
    constructor <;>
      simp [_parse_transfer_instruction, _parse_create_account_instruction,
        accountAt, hacc]
  | [a] =>
    have ha0 : accountAt instruction 0 = some a := by simp [accountAt, hacc]
    have ha1 : accountAt instruction 1 = none := by simp [accountAt, hacc]
    constructor <;>
      · simp only [_parse_transfer_instruction,
          _parse_create_account_instruction, ha0, ha1, Option.bind_some]
        cases context.get_account_from_index a <;> simp
  | _ :: _ :: _ =>
    rw [hacc] at h
    simp only [List.length_cons] at h
    omega

theorem claim_C2_witness :
    wInstShort.accounts.length < 2 ∧
    (_parse_transfer_instruction wInstShort wCtx ⟨500⟩ = none ∧
     _parse_create_account_instruction wInstShort wCtx
       ⟨1000000000, 0, ⟨keyD⟩⟩ = none) :=
  ⟨by decide, claim_C2_short_accounts_panic wInstShort wCtx ⟨500⟩
    ⟨1000000000, 0, ⟨keyD⟩⟩ (by decide)⟩

/-- C3 counterexample: with seed "a", both AllocateWithSeed and
AssignWithSeed emit the seed base-58-encoded (the encoding of the byte 97
is "2g", not "a"), so at least two sibling *WithSeed variants emit an
encoded seed — refuting the claim that exactly one variant encodes its
seed while every sibling passes it through as raw text. -/
theorem claim_C3_counterexample :
    (_parse_allocate_with_seed_instruction ⟨0, [1], []⟩ wCtx
       ⟨⟨keyD⟩, "a", 16, ⟨keyE⟩⟩).map AllocateWithSeedEvent.seed =
      some (bs58encode (strBytes "a")) ∧
    (_parse_assign_with_seed_instruction ⟨0, [1], []⟩ wCtx
       ⟨⟨keyD⟩, "a", ⟨keyE⟩⟩).map AssignWithSeedEvent.seed =
      some (bs58encode (strBytes "a")) ∧
    bs58encode (strBytes "a") ≠ "a" := by
  refine ⟨by decide, by decide, by decide⟩

/-- C3 amended: the asymmetry runs the other way: exactly one *WithSeed
variant — CreateAccountWithSeed — passes its seed through as raw text,
while the three sibling variants (AllocateWithSeed, AssignWithSeed,
TransferWithSeed) emit the seed's bytes in base-58 key encoding. -/
theorem claim_C3_seed_encoding_asymmetry (instruction : StructuredInstruction)
    (context : TransactionContext)
    (c : CreateAccountWithSeed) (al : AllocateWithSeed)
    (As : AssignWithSeed) (t : TransferWithSeed)
    (i0 i1 i2 : Nat) (key0 key1 key2 : List Nat)
    (h0 : accountAt instruction 0 = some i0)
    (h0k : context.get_account_from_index i0 = some key0)
    (h1 : accountAt instruction 1 = some i1)
    (h1k : context.get_account_from_index i1 = some key1)
    (h2 : accountAt instruction 2 = some i2)
    (h2k : context.get_account_from_index i2 = some key2) :
    (_parse_create_account_with_seed_instruction instruction context c).map
        CreateAccountWithSeedEvent.seed = some c.seed ∧
    (_parse_allocate_with_seed_instruction instruction context al).map
        AllocateWithSeedEvent.seed = some (bs58encode (strBytes al.seed)) ∧
    (_parse_assign_with_seed_instruction instruction context As).map
        AssignWithSeedEvent.seed = some (bs58encode (strBytes As.seed)) ∧
    (_parse_transfer_with_seed_instruction instruction context t).map
        TransferWithSeedEvent.from_seed =
      some (bs58encode (strBytes t.from_seed)) := by
  refine ⟨?_, ?_, ?_, ?_⟩ <;>
    simp [_parse_create_account_with_seed_instruction,
      _parse_allocate_with_seed_instruction,
      _parse_assign_with_seed_instruction,
      _parse_transfer_with_seed_instruction, h0, h0k, h1, h1k, h2, h2k]

theorem claim_C3_witness :
    (_parse_create_account_with_seed_instruction ⟨0, [1, 2, 4], []⟩ wCtx
        ⟨⟨keyD⟩, "a", 1, 2, ⟨keyE⟩⟩).map CreateAccountWithSeedEvent.seed =
      some "a" ∧
    (_parse_allocate_with_seed_instruction ⟨0, [1, 2, 4], []⟩ wCtx
        ⟨⟨keyD⟩, "a", 16, ⟨keyE⟩⟩).map AllocateWithSeedEvent.seed =
      some (bs58encode (strBytes "a")) ∧
    (_parse_assign_with_seed_instruction ⟨0, [1, 2, 4], []⟩ wCtx
        ⟨⟨keyD⟩, "a", ⟨keyE⟩⟩).map AssignWithSeedEvent.seed =
      some (bs58encode (strBytes "a")) ∧
    (_parse_transfer_with_seed_instruction ⟨0, [1, 2, 4], []⟩ wCtx
        ⟨7, "a", ⟨keyE⟩⟩).map TransferWithSeedEvent.from_seed =
      some (bs58encode (strBytes "a")) :=
  claim_C3_seed_encoding_asymmetry ⟨0, [1, 2, 4], []⟩ wCtx
    ⟨⟨keyD⟩, "a", 1, 2, ⟨keyE⟩⟩ ⟨⟨keyD⟩, "a", 16, ⟨keyE⟩⟩
    ⟨⟨keyD⟩, "a", ⟨keyE⟩⟩ ⟨7, "a", ⟨keyE⟩⟩
    1 2 4 keyA keyB keyD rfl rfl rfl rfl rfl rfl

/-- C9: `parse_transaction` unwraps the transaction's meta: when the meta
field is absent it panics (modelled as `none`) instead of returning an
error, an unstated precondition of the public interface. -/
theorem claim_C9_meta_unwrap_panics (transaction : ConfirmedTransaction)
    (h : transaction.meta = none) :
    parse_transaction transaction = none := by
  simp [parse_transaction, h]

theorem claim_C9_witness :
    wTxNoMeta.meta = none ∧ parse_transaction wTxNoMeta = none :=
  ⟨rfl, claim_C9_meta_unwrap_panics wTxNoMeta rfl⟩

/-- C10: `parse_instruction` re-checks program ownership: when the owning
program key resolves to a key whose base-58 text differs from the system
program id, it returns the "Not a System Program instruction." error and
produces no event. -/
theorem claim_C10_program_recheck (instruction : StructuredInstruction)
    (context : TransactionContext) (programKey : List Nat)
    (h : context.get_account_from_index instruction.program_id_index =
      some programKey)
    (hne : bs58encode programKey ≠ SYSTEM_PROGRAM_ID) :
    parse_instruction instruction context =
      some (.error "Not a System Program instruction.") := by
  simp [parse_instruction, h, hne]

theorem claim_C10_witness :
    bs58encode keyOther ≠ SYSTEM_PROGRAM_ID ∧
    parse_instruction wInstOther wCtx =
      some (.error "Not a System Program instruction.") :=
  ⟨by decide, claim_C10_program_recheck wInstOther wCtx keyOther rfl
    (by decide)⟩

/-- `_parse_withdraw_nonce_account_instruction` rewritten as a chain over
the resolved keys of account positions 0, 1 and 4 — the only positions the
function touches. -/
lemma withdraw_resolved (instruction : StructuredInstruction)
    (context : TransactionContext) (lamports : Nat) :
    _parse_withdraw_nonce_account_instruction instruction context lamports =
      (resolvedKeyOpt instruction context 0).bind (fun key0 =>
        (resolvedKeyOpt instruction context 1).bind (fun key1 =>
          (resolvedKeyOpt instruction context 4).map (fun key4 =>
            { nonce_account := bs58encode key0
              recipient_account := bs58encode key1
              nonce_authority := bs58encode key4
              lamports := lamports }))) := by
  simp only [_parse_withdraw_nonce_account_instruction, resolvedKeyOpt]
  rcases h0 : accountAt instruction 0 with _ | i0 <;> simp [h0]
  rcases h0k : context.get_account_from_index i0 with _ | key0 <;> simp [h0k]
  rcases h1 : accountAt instruction 1 with _ | i1 <;> simp [h1]
  rcases h1k : context.get_account_from_index i1 with _ | key1 <;> simp [h1k]
  rcases h4 : accountAt instruction 4 with _ | i4 <;> simp [h4]
  rcases h4k : context.get_account_from_index i4 with _ | key4 <;> simp [h4k]

/-- C7: a WithdrawNonceAccount event takes nonce_account from account
position 0, recipient_account from position 1, nonce_authority from
position 4, and lamports from the decoded data; and the event depends on
no account position other than 0, 1 and 4 (position 2, the blockhash
sysvar, and position 3 are never read). -/
theorem claim_C7_withdraw_nonce_account_positions :
    (∀ (instruction : StructuredInstruction) (context : TransactionContext)
      (lamports i0 i1 i4 : Nat) (key0 key1 key4 : List Nat),
      accountAt instruction 0 = some i0 →
      context.get_account_from_index i0 = some key0 →
      accountAt instruction 1 = some i1 →
      context.get_account_from_index i1 = some key1 →
      accountAt instruction 4 = some i4 →
      context.get_account_from_index i4 = some key4 →
      _parse_withdraw_nonce_account_instruction instruction context lamports
        = some { nonce_account := bs58encode key0
                 recipient_account := bs58encode key1
                 nonce_authority := bs58encode key4
                 lamports := lamports }) ∧
    (∀ (inst1 inst2 : StructuredInstruction)
      (ctx1 ctx2 : TransactionContext) (lamports : Nat),
      resolvedKeyOpt inst1 ctx1 0 = resolvedKeyOpt inst2 ctx2 0 →
      resolvedKeyOpt inst1 ctx1 1 = resolvedKeyOpt inst2 ctx2 1 →
      resolvedKeyOpt inst1 ctx1 4 = resolvedKeyOpt inst2 ctx2 4 →
      _parse_withdraw_nonce_account_instruction inst1 ctx1 lamports =
        _parse_withdraw_nonce_account_instruction inst2 ctx2 lamports) := by
  constructor
  · intro instruction context lamports i0 i1 i4 key0 key1 key4
      h0 h0k h1 h1k h4 h4k
    simp [_parse_withdraw_nonce_account_instruction, h0, h0k, h1, h1k,
      h4, h4k]
  · intro inst1 inst2 ctx1 ctx2 lamports e0 e1 e4
    rw [withdraw_resolved, withdraw_resolved, e0, e1, e4]

theorem claim_C7_witness :
    (_parse_withdraw_nonce_account_instruction ⟨0, [1, 2, 5, 5, 4], []⟩
        wCtx 77 =
      some { nonce_account := bs58encode keyA
             recipient_account := bs58encode keyB
             nonce_authority := bs58encode keyD
             lamports := 77 }) ∧
    (_parse_withdraw_nonce_account_instruction ⟨0, [1, 2, 5, 5, 4], []⟩
        wCtx 77 =
      _parse_withdraw_nonce_account_instruction ⟨9, [1, 2, 0, 3, 4], []⟩
        wCtx 77) :=
  ⟨claim_C7_withdraw_nonce_account_positions.1 ⟨0, [1, 2, 5, 5, 4], []⟩
      wCtx 77 1 2 4 keyA keyB keyD rfl rfl rfl rfl rfl rfl,
   claim_C7_withdraw_nonce_account_positions.2 ⟨0, [1, 2, 5, 5, 4], []⟩
      ⟨9, [1, 2, 0, 3, 4], []⟩ wCtx wCtx 77 rfl rfl rfl⟩

/-- C5: for a successful transaction whose flattened stream is
[A (system-owned), B (other program), C (system-owned)] with A and C
parsing successfully, the event list is exactly [A's event, C's event] in
that order, carrying instruction_index 0 and 2 — the original positions in
the flattened stream, counting the skipped instruction B. -/
theorem claim_C5_ordering_preserved (tx : ConfirmedTransaction)
    (meta : TransactionMeta) (A B C : StructuredInstruction)
    (keyPA keyPB keyPC : List Nat) (evA evC : Option Event)
    (hm : tx.meta = some meta) (he : meta.err = none)
    (hi : tx.instructions = [A, B, C])
    (hA : (get_context tx).get_account_from_index A.program_id_index =
      some keyPA)
    (hAs : bs58encode keyPA = SYSTEM_PROGRAM_ID)
    (hApi : parse_instruction A (get_context tx) = some (.ok evA))
    (hB : (get_context tx).get_account_from_index B.program_id_index =
      some keyPB)
    (hBs : bs58encode keyPB ≠ SYSTEM_PROGRAM_ID)
    (hC : (get_context tx).get_account_from_index C.program_id_index =
      some keyPC)
    (hCs : bs58encode keyPC = SYSTEM_PROGRAM_ID)
    (hCpi : parse_instruction C (get_context tx) = some (.ok evC)) :
    parse_transaction tx = some (.ok
      [{ instruction_index := 0, event := evA },
       { instruction_index := 2, event := evC }]) := by
  simp [parse_transaction, hm, he, hi, parseLoop, hA, hAs, hApi, hB, hBs,
    hC, hCs, hCpi]

theorem claim_C5_witness :
    parse_transaction wTx = some (.ok
      [{ instruction_index := 0
         event := some (Event.transfer
           ⟨bs58encode keyA, bs58encode keyB, 500⟩) },
       { instruction_index := 2
         event := some (Event.transfer
           ⟨bs58encode keyB, bs58encode keyA, 1⟩) }]) :=
  claim_C5_ordering_preserved wTx ⟨none⟩ wInstTransfer wInstOther
    wInstTransfer2 sysKey keyOther sysKey
    (some (Event.transfer ⟨bs58encode keyA, bs58encode keyB, 500⟩))
    (some (Event.transfer ⟨bs58encode keyB, bs58encode keyA, 1⟩))
    rfl rfl rfl rfl (by decide) (by decide) rfl (by decide) rfl
    (by decide) (by decide)

/-- The instruction loop is compositional over appending: processing
`pre ++ post` from position `n` processes `pre` from `n` and `post` from
`n + pre.length`, concatenating the events (and propagating any panic). -/
lemma parseLoop_append (context : TransactionContext) :
    ∀ (pre post : List StructuredInstruction) (n : Nat),
    parseLoop context (pre ++ post) n =
      (parseLoop context pre n).bind (fun a =>
        (parseLoop context post (n + pre.length)).map (fun b => a ++ b)) := by
  intro pre
  induction pre with
  | nil =>
    intro post n
    simp [parseLoop]
  | cons x xs ih =>
    intro post n
    have harith : n + (xs.length + 1) = n + 1 + xs.length := by omega
    simp only [List.cons_append, parseLoop, List.length_cons, harith]
    rcases hk : context.get_account_from_index x.program_id_index with _ | key
    · simp [hk]
    by_cases hs : bs58encode key = SYSTEM_PROGRAM_ID
    · rcases hpi : parse_instruction x context with _ | exc
      · simp [hk, hs, hpi]
      rcases exc with e | event
      · simp [hk, hs, hpi, ih post (n + 1)]
      · simp [hk, hs, hpi, ih post (n + 1)]
        cases parseLoop context xs (n + 1) with
        | none => rfl
        | some a =>
          cases parseLoop context post (n + 1 + xs.length) with
          | none => rfl
          | some b => simp
    · simp [hk, hs, ih post (n + 1)]

/-- C6 amended: a decode failure is instruction-local: a system-owned
instruction whose data fails to unpack makes `parse_instruction` return an
error value (not a panic), and the transaction loop drops exactly that
instruction — sibling instructions before and after it are still processed
at their original positions.  (The claim's further assertion that no
malformed instruction can abort the block fails: see the counterexample,
where an instruction with a too-short account list panics.) -/
theorem claim_C6_decode_error_is_local (context : TransactionContext)
    (pre post : List StructuredInstruction) (bad : StructuredInstruction)
    (n : Nat) (key : List Nat) (e : String)
    (hk : context.get_account_from_index bad.program_id_index = some key)
    (hks : bs58encode key = SYSTEM_PROGRAM_ID)
    (hu : SystemInstruction.unpack bad.data = .error e) :
    parse_instruction bad context = some (.error e) ∧
    parseLoop context (pre ++ bad :: post) n =
      (parseLoop context pre n).bind (fun a =>
        (parseLoop context post (n + pre.length + 1)).map
          (fun b => a ++ b)) := by
  have hpi : parse_instruction bad context = some (.error e) := by
    simp [parse_instruction, hk, hks, hu]
  refine ⟨hpi, ?_⟩
  rw [parseLoop_append]
  simp only [parseLoop, hk]
  simp [hks, hpi]

theorem claim_C6_witness :
    parse_instruction wInstBadTag wCtx =
      some (.error "UnknownDiscriminant") ∧
    parseLoop wCtx ([wInstTransfer] ++ wInstBadTag :: [wInstTransfer2]) 0 =
      (parseLoop wCtx [wInstTransfer] 0).bind (fun a =>
        (parseLoop wCtx [wInstTransfer2] (0 + [wInstTransfer].length + 1)).map
          (fun b => a ++ b)) :=
  claim_C6_decode_error_is_local wCtx [wInstTransfer] [wInstTransfer2]
    wInstBadTag 0 sysKey "UnknownDiscriminant" rfl (by decide) (by decide)

/-- C6 counterexample: a block whose only transaction holds one
system-owned Transfer instruction with a single account index does NOT
yield a block result: the unchecked `accounts()[1]` read panics (modelled
as `none`), aborting the whole block — refuting the claim that processing
always returns a (possibly empty) block result for malformed instructions. -/
theorem claim_C6_counterexample : parse_block wBlockPanics = none := by
  decide

/-- Every entry the block loop (started at position `n`) emits comes from
the transaction at its recorded index: that transaction parsed
successfully, produced the entry's non-empty event list and carries the
entry's signature. -/
lemma parseBlockLoop_mem :
    ∀ (txs : List ConfirmedTransaction) (n : Nat)
      (out : List SystemProgramTransactionEvents),
    parseBlockLoop txs n = some out →
    ∀ entry ∈ out, n ≤ entry.transaction_index ∧
      ∃ tx, txs[entry.transaction_index - n]? = some tx ∧
        parse_transaction tx = some (.ok entry.events) ∧
        entry.events ≠ [] ∧ entry.signature = get_signature tx := by
  intro txs
  induction txs with
  | nil =>
    intro n out h entry hm
    simp only [parseBlockLoop] at h
    obtain rfl : [] = out := Option.some.inj h
    simp at hm
  | cons t rest ih =>
    intro n out h entry hm
    simp only [parseBlockLoop] at h
    rcases hpt : parse_transaction t with _ | exc
    · rw [hpt] at h
      exact absurd h (by simp)
    rcases exc with e | events
    · rw [hpt] at h
      obtain ⟨hle, tx, hget, hok, hne, hsig⟩ := ih (n + 1) out h entry hm
      refine ⟨by omega, tx, ?_, hok, hne, hsig⟩
      have hidx : entry.transaction_index - n =
          (entry.transaction_index - (n + 1)) + 1 := by omega
      rw [hidx, List.getElem?_cons_succ]
      exact hget
    · rw [hpt] at h
      simp only [] at h
      by_cases hemp : events.isEmpty = true
      · rw [if_pos hemp] at h
        obtain ⟨hle, tx, hget, hok, hne, hsig⟩ := ih (n + 1) out h entry hm
        refine ⟨by omega, tx, ?_, hok, hne, hsig⟩
        have hidx : entry.transaction_index - n =
            (entry.transaction_index - (n + 1)) + 1 := by omega
        rw [hidx, List.getElem?_cons_succ]
        exact hget
      · rw [if_neg hemp] at h
        rcases hr : parseBlockLoop rest (n + 1) with _ | bes
        · rw [hr] at h
          exact absurd h (by simp)
        rw [hr] at h
        obtain rfl :
            ({ signature := get_signature t, transaction_index := n
               events := events } :: bes) = out := Option.some.inj h
        rcases List.mem_cons.mp hm with rfl | hmem
        · refine ⟨Nat.le_refl n, t, ?_, ?_, ?_, rfl⟩
          · simp [Nat.sub_self]
          · exact hpt
          · intro hnil
            have hnil2 : events = [] := hnil
            rw [hnil2] at hemp
            exact hemp rfl
        · obtain ⟨hle, tx, hget, hok, hne, hsig⟩ := ih (n + 1) bes hr entry hmem
          refine ⟨by omega, tx, ?_, hok, hne, hsig⟩
          have hidx : entry.transaction_index - n =
              (entry.transaction_index - (n + 1)) + 1 := by omega
          rw [hidx, List.getElem?_cons_succ]
          exact hget

/-- In the block loop's output, the entries whose recorded index points at
a given successfully-parsed transaction with a non-empty event list form
exactly the one expected entry. -/
lemma parseBlockLoop_filter :
    ∀ (txs : List ConfirmedTransaction) (n : Nat)
      (out : List SystemProgramTransactionEvents),
    parseBlockLoop txs n = some out →
    ∀ (j : Nat) (tx : ConfirmedTransaction)
      (events : List SystemProgramEvent),
    txs[j]? = some tx →
    parse_transaction tx = some (.ok events) → events ≠ [] →
    out.filter (fun entry => entry.transaction_index == n + j) =
      [{ signature := get_signature tx, transaction_index := n + j
         events := events }] := by
  intro txs
  induction txs with
  | nil =>
    intro n out h j tx events hget
    simp at hget
  | cons t rest ih =>
    intro n out h j tx events hget hok hne
    simp only [parseBlockLoop] at h
    rcases hpt : parse_transaction t with _ | exc
    · rw [hpt] at h
      exact absurd h (by simp)
    rcases exc with e | events0
    · rw [hpt] at h
      match j, hget with
      | 0, hget =>
        obtain rfl : t = tx := by simpa using hget
        rw [hpt] at hok
        exact absurd hok (by simp)
      | j + 1, hget =>
        have hget' : rest[j]? = some tx := by simpa using hget
        have harith : n + (j + 1) = (n + 1) + j := by omega
        rw [harith]
        exact ih (n + 1) out h j tx events hget' hok hne
    · rw [hpt] at h
      simp only [] at h
      by_cases hemp : events0.isEmpty = true
      · rw [if_pos hemp] at h
        match j, hget with
        | 0, hget =>
          obtain rfl : t = tx := by simpa using hget
          rw [hpt] at hok
          obtain rfl : events0 = events := by simpa using hok
          rw [List.isEmpty_iff] at hemp
          exact absurd hemp hne
        | j + 1, hget =>
          have hget' : rest[j]? = some tx := by simpa using hget
          have harith : n + (j + 1) = (n + 1) + j := by omega
          rw [harith]
          exact ih (n + 1) out h j tx events hget' hok hne
      · rw [if_neg hemp] at h
        rcases hr : parseBlockLoop rest (n + 1) with _ | bes
        · rw [hr] at h
          exact absurd h (by simp)
        rw [hr] at h
        obtain rfl :
            ({ signature := get_signature t, transaction_index := n
               events := events0 } :: bes) = out := Option.some.inj h
        match j, hget with
        | 0, hget =>
          obtain rfl : t = tx := by simpa using hget
          rw [hpt] at hok
          obtain rfl : events0 = events := by simpa using hok
          rw [List.filter_cons]
          simp only [Nat.add_zero]
          rw [if_pos (by simp)]
          have hrest : bes.filter
              (fun entry => entry.transaction_index == n) = [] := by
            rw [List.filter_eq_nil_iff]
            intro entry hmem
            obtain ⟨hle, _⟩ := parseBlockLoop_mem rest (n + 1) bes hr entry hmem
            simp only [beq_iff_eq]
            omega
          rw [hrest]
        | j + 1, hget =>
          have hget' : rest[j]? = some tx := by simpa using hget
          rw [List.filter_cons]
          have hneq : (n == n + (j + 1)) = false := by
            simp only [beq_eq_false_iff_ne, ne_eq]
            omega
          rw [if_neg (by simp [hneq])]
          have harith : n + (j + 1) = (n + 1) + j := by omega
          rw [harith]
          exact ih (n + 1) bes hr j tx events hget' hok hne

/-- C4: a transaction whose metadata error field is set yields the
"Cannot parse failed transaction." error — zero events, whatever its
instructions hold — and no entry of any block output carries that
transaction's index. -/
theorem claim_C4_failed_transaction_skipped (tx : ConfirmedTransaction)
    (meta : TransactionMeta) (hm : tx.meta = some meta)
    (he : meta.err.isSome = true) :
    parse_transaction tx = some (.error "Cannot parse failed transaction.") ∧
    ∀ (block : Block) (out : List SystemProgramTransactionEvents) (i : Nat)
      (entry : SystemProgramTransactionEvents),
      parse_block block = some out → block.transactions[i]? = some tx →
      entry ∈ out → entry.transaction_index ≠ i := by
  have herr : parse_transaction tx =
      some (.error "Cannot parse failed transaction.") := by
    simp [parse_transaction, hm, he]
  refine ⟨herr, ?_⟩
  intro block out i entry hb hget hmem hidx
  obtain ⟨-, tx2, hget2, hok, -, -⟩ :=
    parseBlockLoop_mem block.transactions 0 out hb entry hmem
  rw [Nat.sub_zero, hidx, hget] at hget2
  obtain rfl : tx = tx2 := by simpa using hget2
  rw [herr] at hok
  simp at hok

theorem claim_C4_witness :
    (parse_transaction wTxFailed =
      some (.error "Cannot parse failed transaction.")) ∧
    (∀ (block : Block) (out : List SystemProgramTransactionEvents) (i : Nat)
      (entry : SystemProgramTransactionEvents),
      parse_block block = some out →
      block.transactions[i]? = some wTxFailed →
      entry ∈ out → entry.transaction_index ≠ i) :=
  claim_C4_failed_transaction_skipped wTxFailed ⟨some "InstructionError"⟩
    rfl rfl

/-- C8: whenever a block is processed without panicking, its output holds
exactly one entry for each transaction that produced a non-empty event
list — filtering the output on that transaction's block index yields the
single entry carrying its signature, index and events — and every entry of
the output arises that way; transactions with empty event lists are
omitted. -/
theorem claim_C8_block_output_entries (block : Block)
    (out : List SystemProgramTransactionEvents)
    (h : parse_block block = some out) :
    (∀ entry ∈ out, ∃ tx,
      block.transactions[entry.transaction_index]? = some tx ∧
      parse_transaction tx = some (.ok entry.events) ∧
      entry.events ≠ [] ∧ entry.signature = get_signature tx) ∧
    (∀ (i : Nat) (tx : ConfirmedTransaction)
      (events : List SystemProgramEvent),
      block.transactions[i]? = some tx →
      parse_transaction tx = some (.ok events) → events ≠ [] →
      out.filter (fun entry => entry.transaction_index == i) =
        [{ signature := get_signature tx, transaction_index := i
           events := events }]) := by
  constructor
  · intro entry hmem
    obtain ⟨-, tx, hget, hok, hne, hsig⟩ :=
      parseBlockLoop_mem block.transactions 0 out h entry hmem
    rw [Nat.sub_zero] at hget
    exact ⟨tx, hget, hok, hne, hsig⟩
  · intro i tx events hget hok hne
    have := parseBlockLoop_filter block.transactions 0 out h i tx events
      hget hok hne
    rw [Nat.zero_add] at this
    exact this

theorem claim_C8_witness :
    wOut.filter (fun entry => entry.transaction_index == 1) =
      [{ signature := get_signature wTx, transaction_index := 1
         events := wEvents }] :=
  (claim_C8_block_output_entries wBlock wOut (by decide)).2 1 wTx wEvents
    (by decide) (by decide) (by decide)

end SystemProgramSubstream
